import Mathlib

/-!
Verification of the notecard-workspaces viewport and state-store core.

The embedding below translates the pan/zoom, drag, resize and store logic
of the repository into Lean over exact rational arithmetic:

* `toWorkspace` / `toScreen` — the coordinate transform formulas inlined
  throughout `src/hooks/usePanZoom.ts`, `src/hooks/useDraggable.ts` and
  `src/state/atoms.ts` (`(p - pan) / zoom` and `q * zoom + pan`).
* `handleWheel` — the wheel-zoom handler of `usePanZoom.ts` (lines 27-57).
* `pinchMove` — the pinch branch of `handleTouchMoveGlobal` in the
  SVG pan/zoom hook variant (pinch-zoom with midpoint fixed point);
  the inter-finger distances and midpoints, which the code derives from
  the raw touch coordinates, are taken as parameters.
* `handleResizeMove` / `handleResizeWithText` — the resize-move handlers
  of `useResizable.ts` (`handleMouseMove`) and the text-measuring variant
  (`handleResize`), with the measured text height taken as a parameter.
* The store: `AppState` and the action atoms of `src/state/atoms.ts`,
  with JS `Record` objects embedded as association lists preserving
  insertion order (`recordSet` models `{...obj, [k]: v}` spread updates,
  `List.filter` models key-removal destructuring).

JS numbers are modelled as rationals, so every identity proved "within
floating-point tolerance" in the spec is proved exactly here.
-/

/-- A 2-D point, in screen or workspace coordinates (`src/types`). -/
structure Point where
  x : ℚ
  y : ℚ
deriving DecidableEq, Repr

/-- Per-workspace camera state: pan offset plus zoom factor (`src/types`). -/
structure ViewState where
  pan : Point
  zoom : ℚ
deriving DecidableEq, Repr

/-- Screen-to-workspace transform: the `(p - pan) / zoom` formula inlined in
`usePanZoom.ts` (pointUnderPointer), `useDraggable.ts` and `atoms.ts`. -/
def toWorkspace (p : Point) (view : ViewState) : Point :=
  ⟨(p.x - view.pan.x) / view.zoom, (p.y - view.pan.y) / view.zoom⟩

/-- Workspace-to-screen transform: the `q * zoom + pan` formula the pan
solving steps of `handleWheel` and `centerOnPointAtom` invert. -/
def toScreen (q : Point) (view : ViewState) : Point :=
  ⟨q.x * view.zoom + view.pan.x, q.y * view.zoom + view.pan.y⟩

/-- The zoom clamp `Math.max(0.1, Math.min(newZoom, 10))` of
`usePanZoom.ts` line 35 and of the pinch handler. -/
def clampZoom (z : ℚ) : ℚ := max (1/10) (min z 10)

/-- The wheel-zoom handler `handleWheel` of `usePanZoom.ts` (lines 27-57):
multiply or divide zoom by 1.1 according to the scroll direction, clamp,
then solve for the pan that keeps the workspace point under the pointer
fixed.  `scrollDelta` is `-event.deltaY`; `pointer` is the event position
relative to the container. -/
def handleWheel (view : ViewState) (scrollDelta : ℚ) (pointer : Point) : ViewState :=
  let zoomFactor : ℚ := 11/10
  let newZoom := if 0 < scrollDelta then view.zoom * zoomFactor else view.zoom / zoomFactor
  let clampedZoom := clampZoom newZoom
  let pointUnderPointerX := (pointer.x - view.pan.x) / view.zoom
  let pointUnderPointerY := (pointer.y - view.pan.y) / view.zoom
  let newPanX := pointer.x - pointUnderPointerX * clampedZoom
  let newPanY := pointer.y - pointUnderPointerY * clampedZoom
  ⟨⟨newPanX, newPanY⟩, clampedZoom⟩

/-- One pinch-zoom move: the pinch branch of `handleTouchMoveGlobal`
(SVG pan/zoom hook, lines 56-84).  `view` is the view state captured at
pinch start (`initialPinchState`); a zero initial distance skips the
update for the frame. -/
def pinchMove (view : ViewState) (initialDistance currentDistance : ℚ)
    (initialMidpoint currentMidpoint : Point) : ViewState :=
  if initialDistance = 0 then view
  else
    let zoomFactor := currentDistance / initialDistance
    let newZoom := view.zoom * zoomFactor
    let clampedZoom := clampZoom newZoom
    let initialMidpointWorkspaceX := (initialMidpoint.x - view.pan.x) / view.zoom
    let initialMidpointWorkspaceY := (initialMidpoint.y - view.pan.y) / view.zoom
    ⟨⟨currentMidpoint.x - initialMidpointWorkspaceX * clampedZoom,
      currentMidpoint.y - initialMidpointWorkspaceY * clampedZoom⟩, clampedZoom⟩

/-- One zoom operation of the view controller: a wheel-zoom event or a
pinch-zoom move (with the distances and midpoints it reads). -/
inductive ZoomOp where
  | wheel (scrollDelta : ℚ) (pointer : Point)
  | pinch (initialDistance currentDistance : ℚ) (initialMidpoint currentMidpoint : Point)
deriving Repr

/-- Apply one zoom operation to the current view state. -/
def applyZoomOp (view : ViewState) : ZoomOp → ViewState
  | .wheel d p => handleWheel view d p
  | .pinch d0 d1 m0 m1 => pinchMove view d0 d1 m0 m1

-- Shared numeric helper lemmas (rational literals with division do not
-- kernel-reduce, so these are discharged once with norm_num).

theorem rat_tenth_le_one : (1:ℚ)/10 ≤ 1 := by norm_num

theorem rat_one_le_ten : (1:ℚ) ≤ 10 := by norm_num

theorem rat_tenth_le_ten : (1:ℚ)/10 ≤ 10 := by norm_num

theorem clampZoom_lower (z : ℚ) : 1/10 ≤ clampZoom z := le_max_left _ _

theorem clampZoom_upper (z : ℚ) : clampZoom z ≤ 10 :=
  max_le rat_tenth_le_ten (min_le_right _ _)

/-- C1: Wheel-zoom fixed point — for every view state with zoom in
[0.1, 10] and every screen point P, the workspace point that was under P
before the wheel zoom, `(P - oldPan) / oldZoom`, maps back to the same
screen point P under the new pan and zoom computed by `handleWheel`,
exactly over rational arithmetic, including when the zoom clamp engages. -/
theorem wheel_zoom_fixed_point (view : ViewState) (P : Point) (scrollDelta : ℚ)
    (hlo : 1/10 ≤ view.zoom) (hhi : view.zoom ≤ 10) :
    toScreen (toWorkspace P view) (handleWheel view scrollDelta P) = P := by
  obtain ⟨⟨panx, pany⟩, z⟩ := view
  obtain ⟨Px, Py⟩ := P
  simp only [toScreen, toWorkspace, handleWheel, Point.mk.injEq]
  constructor <;> ring

/-- Witness for C1 at a clamp-engaging input: zoom 10 with a zoom-in wheel
event (new zoom 11 clamps back to 10) at screen point (100, 100). -/
theorem wheel_zoom_fixed_point_witness :
    (1:ℚ)/10 ≤ (10:ℚ) ∧ (10:ℚ) ≤ 10 ∧
      toScreen (toWorkspace ⟨100, 100⟩ ⟨⟨0, 0⟩, 10⟩)
        (handleWheel ⟨⟨0, 0⟩, 10⟩ 3 ⟨100, 100⟩) = ⟨100, 100⟩ :=
  ⟨rat_tenth_le_ten, le_refl 10,
    wheel_zoom_fixed_point ⟨⟨0, 0⟩, 10⟩ ⟨100, 100⟩ 3 rat_tenth_le_ten (le_refl 10)⟩

/-- C2: Inverse transform round trip — for every point p and every view
state with zoom in [0.1, 10] (hence nonzero), applying `toWorkspace` and
then `toScreen` returns p exactly over rational arithmetic. -/
theorem toScreen_toWorkspace_round_trip (p : Point) (view : ViewState)
    (hlo : 1/10 ≤ view.zoom) (hhi : view.zoom ≤ 10) :
    toScreen (toWorkspace p view) view = p := by
  have hz : view.zoom ≠ 0 := ne_of_gt (lt_of_lt_of_le (by norm_num) hlo)
  obtain ⟨⟨panx, pany⟩, z⟩ := view
  obtain ⟨px, py⟩ := p
  simp only [toScreen, toWorkspace, Point.mk.injEq]
  simp only [ViewState.zoom] at hz
  constructor <;> field_simp

/-- Witness for C2 at pan (7, -3), zoom 1, point (42, 5). -/
theorem toScreen_toWorkspace_round_trip_witness :
    (1:ℚ)/10 ≤ (1:ℚ) ∧ (1:ℚ) ≤ 10 ∧
      toScreen (toWorkspace ⟨42, 5⟩ ⟨⟨7, -3⟩, 1⟩) ⟨⟨7, -3⟩, 1⟩ = ⟨42, 5⟩ :=
  ⟨rat_tenth_le_one, rat_one_le_ten,
    toScreen_toWorkspace_round_trip ⟨42, 5⟩ ⟨⟨7, -3⟩, 1⟩ rat_tenth_le_one rat_one_le_ten⟩

theorem applyZoomOp_zoom_mem (view : ViewState) (op : ZoomOp)
    (h : 1/10 ≤ view.zoom ∧ view.zoom ≤ 10) :
    1/10 ≤ (applyZoomOp view op).zoom ∧ (applyZoomOp view op).zoom ≤ 10 := by
  cases op with
  | wheel d p =>
      exact ⟨clampZoom_lower _, clampZoom_upper _⟩
  | pinch d0 d1 m0 m1 =>
      by_cases h0 : d0 = 0
      · simpa [applyZoomOp, pinchMove, h0] using h
      · exact ⟨by simpa [applyZoomOp, pinchMove, h0] using clampZoom_lower _,
          by simpa [applyZoomOp, pinchMove, h0] using clampZoom_upper _⟩

/-- C3: Zoom clamp invariant — starting from any view state with zoom in
[0.1, 10], after every finite sequence of wheel-zoom and pinch-zoom
operations (arbitrary wheel deltas and pinch distances) the resulting
zoom is still in [0.1, 10]. -/
theorem zoom_clamp_invariant (view : ViewState) (ops : List ZoomOp)
    (h : 1/10 ≤ view.zoom ∧ view.zoom ≤ 10) :
    1/10 ≤ (ops.foldl applyZoomOp view).zoom ∧ (ops.foldl applyZoomOp view).zoom ≤ 10 := by
  induction ops generalizing view with
  | nil => exact h
  | cons op rest ih => exact ih (applyZoomOp view op) (applyZoomOp_zoom_mem view op h)

/-- Witness for C3: zoom 1, one wheel zoom followed by a strong pinch
out whose raw zoom exceeds the clamp. -/
theorem zoom_clamp_invariant_witness :
    ((1:ℚ)/10 ≤ (1:ℚ) ∧ (1:ℚ) ≤ 10) ∧
      (1/10 ≤ (([ZoomOp.wheel 3 ⟨0, 0⟩,
                 ZoomOp.pinch 1 500 ⟨0, 0⟩ ⟨5, 5⟩]).foldl applyZoomOp ⟨⟨0, 0⟩, 1⟩).zoom ∧
       (([ZoomOp.wheel 3 ⟨0, 0⟩,
          ZoomOp.pinch 1 500 ⟨0, 0⟩ ⟨5, 5⟩]).foldl applyZoomOp ⟨⟨0, 0⟩, 1⟩).zoom ≤ 10) :=
  ⟨⟨rat_tenth_le_one, rat_one_le_ten⟩,
    zoom_clamp_invariant ⟨⟨0, 0⟩, 1⟩ _ ⟨rat_tenth_le_one, rat_one_le_ten⟩⟩

-- Resize controller (`useResizable.ts` and its text-measuring variant).

/-- A card size in workspace units (`src/types`). -/
structure CardSize where
  width : ℚ
  height : ℚ
deriving DecidableEq, Repr

/-- Minimum card width, `MIN_CARD_WIDTH` of `components/Card.tsx`. -/
def MIN_CARD_WIDTH : ℚ := 150

/-- Minimum card height, `MIN_CARD_HEIGHT` of `components/Card.tsx`. -/
def MIN_CARD_HEIGHT : ℚ := 80

/-- One resize move of `handleMouseMove` in `useResizable.ts` (lines
87-104): scale the screen-space pointer delta by 1/zoom, add it to the
size captured at resize start, and clamp each dimension to its minimum. -/
def handleResizeMove (startSize : CardSize) (screenDelta : Point) (zoom : ℚ) : CardSize :=
  let scaledDx := screenDelta.x / zoom
  let scaledDy := screenDelta.y / zoom
  ⟨max MIN_CARD_WIDTH (startSize.width + scaledDx),
   max MIN_CARD_HEIGHT (startSize.height + scaledDy)⟩

/-- One resize move of `handleResize` in the text-measuring resize hook
variant (lines 65-84): same clamped candidate size, then the height is
raised to the measured text height plus vertical padding
(`minHeightForText`, taken as a parameter). -/
def handleResizeWithText (startSize : CardSize) (screenDelta : Point) (zoom : ℚ)
    (minHeightForText : ℚ) : CardSize :=
  let newWidth := startSize.width + screenDelta.x / zoom
  let newHeight := startSize.height + screenDelta.y / zoom
  let clampedWidth := max MIN_CARD_WIDTH newWidth
  let userClampedHeight := max MIN_CARD_HEIGHT newHeight
  let finalHeight := max (max userClampedHeight minHeightForText) MIN_CARD_HEIGHT
  ⟨clampedWidth, finalHeight⟩

/-- One resize-move operation, in either of the two resize handler
variants the repository contains. -/
inductive ResizeOp where
  | plain (screenDelta : Point) (zoom : ℚ)
  | withText (screenDelta : Point) (zoom : ℚ) (minHeightForText : ℚ)
deriving Repr

/-- Apply one resize-move operation to the current card size (each resize
gesture captures the card's current size as its start size). -/
def applyResizeOp (size : CardSize) : ResizeOp → CardSize
  | .plain d z => handleResizeMove size d z
  | .withText d z m => handleResizeWithText size d z m

theorem applyResizeOp_min (size : CardSize) (op : ResizeOp) :
    MIN_CARD_WIDTH ≤ (applyResizeOp size op).width ∧
      MIN_CARD_HEIGHT ≤ (applyResizeOp size op).height := by
  cases op with
  | plain d z =>
      exact ⟨le_max_left _ _, le_max_left _ _⟩
  | withText d z m =>
      refine ⟨le_max_left _ _, ?_⟩
      exact le_trans (le_max_left _ _) (le_trans (le_max_left _ _) (le_max_left _ _))

/-- C4: Minimum size invariant — for every card size with width at least
150 and height at least 80, after any finite sequence of resize-move
operations (each computing candidate size = startSize + screenDelta/zoom
and clamping) the width stays at least 150 and the height at least 80. -/
theorem resize_min_size_invariant (size : CardSize) (ops : List ResizeOp)
    (h : MIN_CARD_WIDTH ≤ size.width ∧ MIN_CARD_HEIGHT ≤ size.height) :
    MIN_CARD_WIDTH ≤ (ops.foldl applyResizeOp size).width ∧
      MIN_CARD_HEIGHT ≤ (ops.foldl applyResizeOp size).height := by
  induction ops generalizing size with
  | nil => exact h
  | cons op rest ih => exact ih (applyResizeOp size op) (applyResizeOp_min size op)

/-- Witness for C4: size 200x100, a shrink far past the minimum followed
by a text-height-driven resize. -/
theorem resize_min_size_invariant_witness :
    (MIN_CARD_WIDTH ≤ (200:ℚ) ∧ MIN_CARD_HEIGHT ≤ (100:ℚ)) ∧
      (MIN_CARD_WIDTH ≤
          (([ResizeOp.plain ⟨-300, -300⟩ 1,
             ResizeOp.withText ⟨5, 5⟩ 1 120]).foldl applyResizeOp ⟨200, 100⟩).width ∧
        MIN_CARD_HEIGHT ≤
          (([ResizeOp.plain ⟨-300, -300⟩ 1,
             ResizeOp.withText ⟨5, 5⟩ 1 120]).foldl applyResizeOp ⟨200, 100⟩).height) :=
  ⟨⟨by decide, by decide⟩,
    resize_min_size_invariant ⟨200, 100⟩ _ ⟨by decide, by decide⟩⟩

-- Drag controller (`useDraggable.ts`).

/-- Componentwise point subtraction. -/
def Point.sub (p q : Point) : Point := ⟨p.x - q.x, p.y - q.y⟩

/-- Drag-start offset capture of `startDrag` in `useDraggable.ts` (lines
28-48): the pointer's workspace position minus the card's position. -/
def dragStartOffset (view : ViewState) (pointer cardPosition : Point) : Point :=
  let pointerWorkspaceX := (pointer.x - view.pan.x) / view.zoom
  let pointerWorkspaceY := (pointer.y - view.pan.y) / view.zoom
  ⟨pointerWorkspaceX - cardPosition.x, pointerWorkspaceY - cardPosition.y⟩

/-- Drag-move position computation of `handleDrag` in `useDraggable.ts`
(lines 50-60): the pointer's workspace position minus the captured
offset. -/
def dragNewPosition (view : ViewState) (pointer offset : Point) : Point :=
  let pointerWorkspaceX := (pointer.x - view.pan.x) / view.zoom
  let pointerWorkspaceY := (pointer.y - view.pan.y) / view.zoom
  ⟨pointerWorkspaceX - offset.x, pointerWorkspaceY - offset.y⟩

/-- C8: Drag position computation — with pan (0,0) and zoom 1, a drag of
a card at (50,50) started at screen point (60,60) and moved to screen
point (160,160) dispatches position (150,150); and in general every
drag move sets the position to `toWorkspace(pointer) - offset`. -/
theorem drag_position_computation :
    dragNewPosition ⟨⟨0, 0⟩, 1⟩ ⟨160, 160⟩
        (dragStartOffset ⟨⟨0, 0⟩, 1⟩ ⟨60, 60⟩ ⟨50, 50⟩) = ⟨150, 150⟩ ∧
      ∀ (view : ViewState) (pointer offset : Point),
        dragNewPosition view pointer offset = Point.sub (toWorkspace pointer view) offset := by
  constructor
  · simp only [dragNewPosition, dragStartOffset, Point.mk.injEq]
    norm_num
  · intro view pointer offset
    rfl

-- Reactive state store (`src/state/atoms.ts`).

/-- A card (`src/types`): id, text, workspace-space position, optional size. -/
structure CardData where
  id : String
  text : String
  position : Point
  size : Option CardSize
deriving DecidableEq, Repr

/-- A workspace (`src/types`): cards record, camera state, card order. -/
structure WorkspaceData where
  id : String
  name : String
  cards : List (String × CardData)
  viewState : ViewState
  cardOrder : List String
deriving DecidableEq, Repr

/-- The root application state (`src/types`). -/
structure AppState where
  workspaces : List (String × WorkspaceData)
  currentWorkspaceId : Option String
deriving DecidableEq, Repr

/-- Key lookup in a JS `Record` embedded as an association list. -/
def rlookup {α : Type} (k : String) : List (String × α) → Option α
  | [] => none
  | kv :: rest => if kv.1 = k then some kv.2 else rlookup k rest

/-- The keys of a record, in insertion order (`Object.keys`). -/
def recordKeys {α : Type} (m : List (String × α)) : List String := m.map Prod.fst

/-- The JS spread update `{...m, [k]: v}`: replace in place when the key
is present, append otherwise. -/
def recordSet {α : Type} (m : List (String × α)) (k : String) (v : α) : List (String × α) :=
  if (rlookup k m).isSome then m.map fun kv => if kv.1 = k then (k, v) else kv
  else m ++ [(k, v)]

/-- The JS key-removal destructuring `const { [k]: _, ...rest } = m`. -/
def recordDelete {α : Type} (m : List (String × α)) (k : String) : List (String × α) :=
  m.filter fun kv => kv.1 != k

/-- The `if (!currentId) return` guard the card actions share: a missing
or empty current workspace id is falsy and aborts the action. -/
def getCurrentId (s : AppState) : Option String :=
  match s.currentWorkspaceId with
  | none => none
  | some cid => if cid = "" then none else some cid

/-- The `updateViewStateAtom` action (atoms.ts lines 144-166): merge a
partial view state into the current workspace's view state. -/
def updateViewState (s : AppState) (newPan : Option Point) (newZoom : Option ℚ) : AppState :=
  match getCurrentId s with
  | none => s
  | some currentId =>
    match rlookup currentId s.workspaces with
    | none => s
    | some w =>
      let merged : ViewState := ⟨newPan.getD w.viewState.pan, newZoom.getD w.viewState.zoom⟩
      { s with workspaces := recordSet s.workspaces currentId ({ w with viewState := merged }) }

/-- The `addCardAtom` action (atoms.ts lines 169-215), the generated UUID
taken as the parameter `newCardId`: center the default 200x100 card on
the requested position, insert it into `cards` and append its id to
`cardOrder`. -/
def addCard (s : AppState) (newCardId : String) (text : String) (position : Point) : AppState :=
  match getCurrentId s with
  | none => s
  | some currentId =>
    let defaultWidth : ℚ := 200
    let defaultHeight : ℚ := 100
    let adjustedPosition : Point :=
      ⟨position.x - defaultWidth / 2, position.y - defaultHeight / 2⟩
    let newCard : CardData :=
      ⟨newCardId, text, adjustedPosition, some ⟨defaultWidth, defaultHeight⟩⟩
    match rlookup currentId s.workspaces with
    | none => s
    | some w =>
      let w2 := { w with cards := recordSet w.cards newCardId newCard,
                           cardOrder := w.cardOrder ++ [newCardId] }
      { s with workspaces := recordSet s.workspaces currentId w2 }

/-- The `updateCardPositionAtom` action (atoms.ts lines 218-243): no-op
when the card is absent. -/
def updateCardPosition (s : AppState) (cardId : String) (position : Point) : AppState :=
  match getCurrentId s with
  | none => s
  | some currentId =>
    match rlookup currentId s.workspaces with
    | none => s
    | some w =>
      match rlookup cardId w.cards with
      | none => s
      | some card =>
        let w2 := { w with cards := recordSet w.cards cardId ({ card with position := position }) }
        { s with workspaces := recordSet s.workspaces currentId w2 }

/-- The `updateCardTextAtom` action (atoms.ts lines 246-271). -/
def updateCardText (s : AppState) (cardId : String) (text : String) : AppState :=
  match getCurrentId s with
  | none => s
  | some currentId =>
    match rlookup currentId s.workspaces with
    | none => s
    | some w =>
      match rlookup cardId w.cards with
      | none => s
      | some card =>
        let w2 := { w with cards := recordSet w.cards cardId ({ card with text := text }) }
        { s with workspaces := recordSet s.workspaces currentId w2 }

/-- The `updateCardSizeAtom` action (atoms.ts lines 274-299). -/
def updateCardSize (s : AppState) (cardId : String) (size : CardSize) : AppState :=
  match getCurrentId s with
  | none => s
  | some currentId =>
    match rlookup currentId s.workspaces with
    | none => s
    | some w =>
      match rlookup cardId w.cards with
      | none => s
      | some card =>
        let w2 := { w with cards := recordSet w.cards cardId ({ card with size := some size }) }
        { s with workspaces := recordSet s.workspaces currentId w2 }

/-- The `deleteCardAtom` action (atoms.ts lines 302-327): remove the card
from `cards` and filter its id out of `cardOrder`; no-op when absent. -/
def deleteCard (s : AppState) (cardId : String) : AppState :=
  match getCurrentId s with
  | none => s
  | some currentId =>
    match rlookup currentId s.workspaces with
    | none => s
    | some w =>
      match rlookup cardId w.cards with
      | none => s
      | some _ =>
        let w2 := { w with cards := recordDelete w.cards cardId,
                             cardOrder := w.cardOrder.filter fun id => id != cardId }
        { s with workspaces := recordSet s.workspaces currentId w2 }

/-- The `createWorkspaceAtom` action (atoms.ts lines 330-364), the two
generated UUIDs taken as parameters: a new workspace holding one default
card (empty text, position (100,100), size 200x100, sole entry of
`cardOrder`), switched to immediately. -/
def createWorkspace (s : AppState) (newId defaultCardId : String) (name : String) : AppState :=
  let defaultCard : CardData := ⟨defaultCardId, "", ⟨100, 100⟩, some ⟨200, 100⟩⟩
  let newWorkspace : WorkspaceData :=
    ⟨newId, name, [(defaultCardId, defaultCard)], ⟨⟨0, 0⟩, 1⟩, [defaultCardId]⟩
  { workspaces := recordSet s.workspaces newId newWorkspace,
    currentWorkspaceId := some newId }

/-- The `switchWorkspaceAtom` action (atoms.ts lines 367-378): no-op on a
missing id. -/
def switchWorkspace (s : AppState) (workspaceId : String) : AppState :=
  match rlookup workspaceId s.workspaces with
  | none => s
  | some _ => { s with currentWorkspaceId := some workspaceId }

/-- The `deleteWorkspaceAtom` action (atoms.ts lines 381-409): no-op on a
missing id or when only one workspace remains; when the current workspace
is deleted, the first remaining key becomes current. -/
def deleteWorkspace (s : AppState) (workspaceId : String) : AppState :=
  match rlookup workspaceId s.workspaces with
  | none => s
  | some _ =>
    if s.workspaces.length ≤ 1 then s
    else
      let remainingWorkspaces := recordDelete s.workspaces workspaceId
      let finalCurrentId :=
        if s.currentWorkspaceId = some workspaceId then (recordKeys remainingWorkspaces).head?
        else s.currentWorkspaceId
      { workspaces := remainingWorkspaces, currentWorkspaceId := finalCurrentId }

/-- The `updateCardOrderAtom` action (atoms.ts lines 517-539): set the
target workspace's `cardOrder` to the caller-provided sequence, with no
validation against the `cards` keys. -/
def updateCardOrder (s : AppState) (workspaceId : String) (newOrder : List String) : AppState :=
  if workspaceId = "" then s
  else
    match rlookup workspaceId s.workspaces with
    | none => s
    | some w =>
      { s with workspaces := recordSet s.workspaces workspaceId ({ w with cardOrder := newOrder }) }

/-- The `bringCardToFrontAtom` action (atoms.ts lines 434-442) on the
interaction-order sequence: remove the id if present, then append it. -/
def bringCardToFront (currentOrder : List String) (cardId : String) : List String :=
  (currentOrder.filter fun id => id != cardId) ++ [cardId]

/-- The initial app state shape of atoms.ts (lines 26-37): one default
workspace with no cards and an empty card order, at a concrete id. -/
def initialAppState : AppState :=
  ⟨[("w0", ⟨"w0", "Default Workspace", [], ⟨⟨0, 0⟩, 1⟩, []⟩)], some "w0"⟩

-- Record lemmas.

theorem rlookup_isSome_iff_mem {α : Type} (k : String) (m : List (String × α)) :
    (rlookup k m).isSome ↔ k ∈ recordKeys m := by
  induction m with
  | nil => simp [rlookup, recordKeys]
  | cons kv rest ih =>
      by_cases hk : kv.1 = k
      · simp [rlookup, recordKeys, hk]
      · simp [rlookup, recordKeys, hk, ih, Ne.symm hk]

theorem rlookup_mem {α : Type} {k : String} {m : List (String × α)} {v : α}
    (h : rlookup k m = some v) : (k, v) ∈ m := by
  induction m with
  | nil => simp [rlookup] at h
  | cons kv rest ih =>
      by_cases hk : kv.1 = k
      · simp only [rlookup, hk, if_pos] at h
        obtain ⟨k1, v1⟩ := kv
        simp only at hk
        subst hk
        simp only [Option.some.injEq] at h
        subst h
        exact List.mem_cons_self _ _
      · simp only [rlookup, hk, if_neg, not_false_iff] at h
        exact List.mem_cons_of_mem _ (ih h)

theorem recordKeys_map_update {α : Type} (m : List (String × α)) (k : String) (v : α) :
    recordKeys (m.map fun kv => if kv.1 = k then (k, v) else kv) = recordKeys m := by
  induction m with
  | nil => rfl
  | cons kv rest ih =>
      simp only [recordKeys, List.map_cons] at ih ⊢
      by_cases hk : kv.1 = k
      · rw [if_pos hk, ih, hk]
      · rw [if_neg hk, ih]

theorem recordKeys_recordSet_present {α : Type} {m : List (String × α)} {k : String} (v : α)
    (h : (rlookup k m).isSome) : recordKeys (recordSet m k v) = recordKeys m := by
  simp only [recordSet, if_pos h]
  exact recordKeys_map_update m k v

theorem recordKeys_recordSet_fresh {α : Type} {m : List (String × α)} {k : String} (v : α)
    (h : rlookup k m = none) : recordKeys (recordSet m k v) = recordKeys m ++ [k] := by
  simp [recordSet, h, recordKeys]

theorem mem_recordSet {α : Type} {m : List (String × α)} {k : String} {v : α}
    {kw : String × α} (h : kw ∈ recordSet m k v) : kw.2 = v ∨ kw ∈ m := by
  by_cases hs : (rlookup k m).isSome
  · simp only [recordSet, if_pos hs, List.mem_map] at h
    obtain ⟨kv, hkv, heq⟩ := h
    by_cases hk : kv.1 = k
    · simp only [hk, if_pos] at heq
      left
      rw [← heq]
    · simp only [hk, if_neg, not_false_iff] at heq
      right
      rw [← heq]
      exact hkv
  · simp only [recordSet, if_neg hs, List.mem_append, List.mem_singleton] at h
    rcases h with h | h
    · exact Or.inr h
    · exact Or.inl (by rw [h])

theorem forall_mem_recordSet {α : Type} {P : α → Prop} {m : List (String × α)}
    {k : String} {v : α} (hm : ∀ kw ∈ m, P kw.2) (hv : P v) :
    ∀ kw ∈ recordSet m k v, P kw.2 := by
  intro kw hkw
  rcases mem_recordSet hkw with h | h
  · rw [h]; exact hv
  · exact hm kw h

theorem recordKeys_recordDelete {α : Type} (m : List (String × α)) (k : String) :
    recordKeys (recordDelete m k) = (recordKeys m).filter fun a => a != k := by
  induction m with
  | nil => rfl
  | cons kv rest ih =>
      by_cases hk : kv.1 = k
      · simp [recordDelete, recordKeys, List.filter_cons, hk] at ih ⊢
        exact ih
      · simp [recordDelete, recordKeys, List.filter_cons, hk] at ih ⊢
        exact ih

theorem rlookup_recordDelete_ne {α : Type} {c k : String} (m : List (String × α))
    (hck : c ≠ k) : rlookup c (recordDelete m k) = rlookup c m := by
  induction m with
  | nil => rfl
  | cons kv rest ih =>
      by_cases hkk : kv.1 = k
      · have hc : kv.1 ≠ c := by rw [hkk]; exact Ne.symm hck
        simp only [recordDelete] at ih ⊢
        rw [List.filter_cons, if_neg (by simp [hkk]), ih]
        simp only [rlookup]
        rw [if_neg hc]
      · simp only [recordDelete] at ih ⊢
        rw [List.filter_cons, if_pos (by simp [hkk])]
        simp only [rlookup]
        by_cases hc : kv.1 = c
        · rw [if_pos hc, if_pos hc]
        · rw [if_neg hc, if_neg hc]
          exact ih

theorem rlookup_append {α : Type} (k : String) (m m2 : List (String × α)) :
    rlookup k (m ++ m2) =
      match rlookup k m with
      | some v => some v
      | none => rlookup k m2 := by
  induction m with
  | nil => simp [rlookup]
  | cons kv rest ih =>
      by_cases hk : kv.1 = k
      · simp [rlookup, hk]
      · simp [rlookup, hk, ih]

/-- C9: bringCardToFront idempotence — for every interaction-order
sequence and card id, applying `bringCardToFront` twice yields the same
sequence as applying it once; after one application the id appears
exactly once, at the tail, and the relative order of all other ids is
preserved (an absent id is inserted at the tail). -/
theorem bringCardToFront_idempotent (order : List String) (cardId : String) :
    bringCardToFront (bringCardToFront order cardId) cardId = bringCardToFront order cardId ∧
    (bringCardToFront order cardId).count cardId = 1 ∧
    (bringCardToFront order cardId).getLast? = some cardId ∧
    (bringCardToFront order cardId).filter (fun id => id != cardId) =
      order.filter fun id => id != cardId := by
  have hfilter : (bringCardToFront order cardId).filter (fun id => id != cardId) =
      order.filter fun id => id != cardId := by
    simp [bringCardToFront, List.filter_append, List.filter_filter, Bool.and_self,
      bne_self_eq_false]
  have hcount0 : (order.filter fun id => id != cardId).count cardId = 0 := by
    rw [List.count_eq_zero]
    intro hmem
    have hp := List.of_mem_filter hmem
    simp at hp
  refine ⟨?_, ?_, List.getLast?_concat _, hfilter⟩
  · have hdef : bringCardToFront (bringCardToFront order cardId) cardId =
        (bringCardToFront order cardId).filter (fun id => id != cardId) ++ [cardId] := rfl
    rw [hdef, hfilter]
    rfl
  · simp [bringCardToFront, List.count_append, hcount0]

-- The cardOrder permutation invariant and its preservation.

/-- The cardOrder permutation invariant: in every workspace entry the
`cardOrder` list is a permutation of the keys of the `cards` record. -/
def CardOrderInv (s : AppState) : Prop :=
  ∀ kw ∈ s.workspaces, (kw : String × WorkspaceData).2.cardOrder.Perm (recordKeys kw.2.cards)

instance (s : AppState) : Decidable (CardOrderInv s) := by
  unfold CardOrderInv
  infer_instance

theorem cardOrderInv_set {s : AppState} (h : CardOrderInv s) (cid : String)
    {w2 : WorkspaceData} (cur : Option String)
    (hP : w2.cardOrder.Perm (recordKeys w2.cards)) :
    CardOrderInv ⟨recordSet s.workspaces cid w2, cur⟩ := by
  intro kw hkw
  rcases mem_recordSet hkw with h2 | h2
  · rw [h2]
    exact hP
  · exact h kw h2

theorem cardOrderInv_addCard {s : AppState} (h : CardOrderInv s) (id text : String)
    (pos : Point) (hfresh : ∀ kw ∈ s.workspaces, rlookup id kw.2.cards = none) :
    CardOrderInv (addCard s id text pos) := by
  unfold addCard
  cases hcid : getCurrentId s with
  | none => exact h
  | some currentId =>
      dsimp only
      cases hw : rlookup currentId s.workspaces with
      | none => exact h
      | some w =>
          dsimp only
          refine cardOrderInv_set h currentId _ ?_
          have hmem := rlookup_mem hw
          dsimp only
          rw [recordKeys_recordSet_fresh _ (hfresh _ hmem)]
          exact (h _ hmem).append_right [id]

theorem cardOrderInv_deleteCard {s : AppState} (h : CardOrderInv s) (cardId : String) :
    CardOrderInv (deleteCard s cardId) := by
  unfold deleteCard
  cases hcid : getCurrentId s with
  | none => exact h
  | some currentId =>
      dsimp only
      cases hw : rlookup currentId s.workspaces with
      | none => exact h
      | some w =>
          dsimp only
          cases hc : rlookup cardId w.cards with
          | none => exact h
          | some card =>
              dsimp only
              refine cardOrderInv_set h currentId _ ?_
              dsimp only
              rw [recordKeys_recordDelete]
              exact (h _ (rlookup_mem hw)).filter _

theorem cardOrderInv_updateCardPosition {s : AppState} (h : CardOrderInv s)
    (cardId : String) (pos : Point) : CardOrderInv (updateCardPosition s cardId pos) := by
  unfold updateCardPosition
  cases hcid : getCurrentId s with
  | none => exact h
  | some currentId =>
      dsimp only
      cases hw : rlookup currentId s.workspaces with
      | none => exact h
      | some w =>
          dsimp only
          cases hc : rlookup cardId w.cards with
          | none => exact h
          | some card =>
              dsimp only
              refine cardOrderInv_set h currentId _ ?_
              dsimp only
              rw [recordKeys_recordSet_present _ (by rw [hc]; rfl)]
              exact h _ (rlookup_mem hw)

theorem cardOrderInv_updateCardText {s : AppState} (h : CardOrderInv s)
    (cardId text : String) : CardOrderInv (updateCardText s cardId text) := by
  unfold updateCardText
  cases hcid : getCurrentId s with
  | none => exact h
  | some currentId =>
      dsimp only
      cases hw : rlookup currentId s.workspaces with
      | none => exact h
      | some w =>
          dsimp only
          cases hc : rlookup cardId w.cards with
          | none => exact h
          | some card =>
              dsimp only
              refine cardOrderInv_set h currentId _ ?_
              dsimp only
              rw [recordKeys_recordSet_present _ (by rw [hc]; rfl)]
              exact h _ (rlookup_mem hw)

theorem cardOrderInv_updateCardSize {s : AppState} (h : CardOrderInv s)
    (cardId : String) (size : CardSize) : CardOrderInv (updateCardSize s cardId size) := by
  unfold updateCardSize
  cases hcid : getCurrentId s with
  | none => exact h
  | some currentId =>
      dsimp only
      cases hw : rlookup currentId s.workspaces with
      | none => exact h
      | some w =>
          dsimp only
          cases hc : rlookup cardId w.cards with
          | none => exact h
          | some card =>
              dsimp only
              refine cardOrderInv_set h currentId _ ?_
              dsimp only
              rw [recordKeys_recordSet_present _ (by rw [hc]; rfl)]
              exact h _ (rlookup_mem hw)

theorem cardOrderInv_updateViewState {s : AppState} (h : CardOrderInv s)
    (p : Option Point) (z : Option ℚ) : CardOrderInv (updateViewState s p z) := by
  unfold updateViewState
  cases hcid : getCurrentId s with
  | none => exact h
  | some currentId =>
      dsimp only
      cases hw : rlookup currentId s.workspaces with
      | none => exact h
      | some w =>
          dsimp only
          refine cardOrderInv_set h currentId _ ?_
          exact h _ (rlookup_mem hw)

theorem cardOrderInv_createWorkspace {s : AppState} (h : CardOrderInv s)
    (newId cid name : String) : CardOrderInv (createWorkspace s newId cid name) := by
  unfold createWorkspace
  dsimp only
  refine cardOrderInv_set h newId _ ?_
  exact List.Perm.refl _

theorem cardOrderInv_switchWorkspace {s : AppState} (h : CardOrderInv s)
    (wid : String) : CardOrderInv (switchWorkspace s wid) := by
  unfold switchWorkspace
  cases hw : rlookup wid s.workspaces with
  | none => exact h
  | some w => exact h

theorem cardOrderInv_deleteWorkspace {s : AppState} (h : CardOrderInv s)
    (wid : String) : CardOrderInv (deleteWorkspace s wid) := by
  unfold deleteWorkspace
  cases hw : rlookup wid s.workspaces with
  | none => exact h
  | some w =>
      dsimp only
      by_cases hlen : s.workspaces.length ≤ 1
      · rw [if_pos hlen]
        exact h
      · rw [if_neg hlen]
        intro kw hkw
        exact h kw (List.mem_of_mem_filter hkw)

/-- C5 (amended): the cardOrder permutation invariant is preserved by
every store operation except `updateCardOrder`: addCard (with a fresh
generated id), deleteCard, the card field updates, view-state updates,
createWorkspace, switchWorkspace and deleteWorkspace all keep every
workspace's `cardOrder` a permutation of its `cards` keys.
`updateCardOrder` installs the caller-provided order unvalidated (see
the counterexample), and no reconciliation-on-read exists in the code. -/
theorem cardOrder_perm_invariant (s : AppState) (h : CardOrderInv s) :
    (∀ id text pos, (∀ kw ∈ s.workspaces, rlookup id kw.2.cards = none) →
        CardOrderInv (addCard s id text pos)) ∧
    (∀ cardId, CardOrderInv (deleteCard s cardId)) ∧
    (∀ cardId pos, CardOrderInv (updateCardPosition s cardId pos)) ∧
    (∀ cardId text, CardOrderInv (updateCardText s cardId text)) ∧
    (∀ cardId size, CardOrderInv (updateCardSize s cardId size)) ∧
    (∀ p z, CardOrderInv (updateViewState s p z)) ∧
    (∀ newId cid name, CardOrderInv (createWorkspace s newId cid name)) ∧
    (∀ wid, CardOrderInv (switchWorkspace s wid)) ∧
    (∀ wid, CardOrderInv (deleteWorkspace s wid)) :=
  ⟨fun id text pos hfresh => cardOrderInv_addCard h id text pos hfresh,
   fun cardId => cardOrderInv_deleteCard h cardId,
   fun cardId pos => cardOrderInv_updateCardPosition h cardId pos,
   fun cardId text => cardOrderInv_updateCardText h cardId text,
   fun cardId size => cardOrderInv_updateCardSize h cardId size,
   fun p z => cardOrderInv_updateViewState h p z,
   fun newId cid name => cardOrderInv_createWorkspace h newId cid name,
   fun wid => cardOrderInv_switchWorkspace h wid,
   fun wid => cardOrderInv_deleteWorkspace h wid⟩

/-- Counterexample to C5 as stated: the initial app state satisfies the
invariant, and a single `updateCardOrder` call with an order that is not
a permutation of the `cards` keys leaves the store with the invariant
broken — the store does not maintain it on every operation and no lazy
reconciliation on read exists. -/
theorem cardOrder_perm_counterexample :
    CardOrderInv initialAppState ∧
      ¬ CardOrderInv (updateCardOrder initialAppState "w0" ["ghost"]) := by
  constructor
  · decide
  · decide

/-- Witness for the amended C5 at the initial app state and a fresh card
id. -/
theorem cardOrder_perm_invariant_witness :
    (CardOrderInv initialAppState ∧
        (∀ kw ∈ initialAppState.workspaces, rlookup "c1" kw.2.cards = none)) ∧
      CardOrderInv (addCard initialAppState "c1" "hello" ⟨0, 0⟩) :=
  ⟨⟨by decide, by decide⟩,
    (cardOrder_perm_invariant initialAppState (by decide)).1 "c1" "hello" ⟨0, 0⟩ (by decide)⟩

-- Workspace deletion guard and workspace creation.

/-- The AppState invariant of the spec: when `workspaces` is nonempty,
`currentWorkspaceId` references an existing workspace entry. -/
def CurrentIdValid (s : AppState) : Prop :=
  s.workspaces ≠ [] →
    (s.currentWorkspaceId.bind fun cid => rlookup cid s.workspaces).isSome

instance (s : AppState) : Decidable (CurrentIdValid s) := by
  unfold CurrentIdValid
  infer_instance

theorem recordDelete_ne_nil {α : Type} {m : List (String × α)} {k : String}
    (hnd : (recordKeys m).Nodup) (hlen : 2 ≤ m.length) : recordDelete m k ≠ [] := by
  intro hempty
  rcases m with _ | ⟨a, m1⟩
  · simp at hlen
  rcases m1 with _ | ⟨b, rest⟩
  · simp at hlen
  have hmem : ∀ kv ∈ a :: b :: rest, kv.1 ≠ k → False := by
    intro kv hkv hne
    have hin : kv ∈ recordDelete (a :: b :: rest) k :=
      List.mem_filter.mpr ⟨hkv, by simp [hne]⟩
    rw [hempty] at hin
    exact absurd hin (List.not_mem_nil kv)
  have hak : a.1 = k := by
    by_contra hh
    exact hmem a (List.mem_cons_self _ _) hh
  have hbk : b.1 = k := by
    by_contra hh
    exact hmem b (List.mem_cons_of_mem _ (List.mem_cons_self _ _)) hh
  have hab : a.1 ≠ b.1 := by
    simp only [recordKeys, List.map_cons, List.nodup_cons, List.mem_cons] at hnd
    exact fun he => hnd.1 (Or.inl he)
  exact hab (hak.trans hbk.symm)

/-- C7: Workspace deletion guard — deleting from a single-workspace state
is a no-op for every id; deleting a missing id is a no-op; and when a
workspace is actually deleted (id present, at least two workspaces),
`currentWorkspaceId` still references an existing workspace afterwards,
assuming the record keys are unique and the pre-state satisfies the
current-id invariant. -/
theorem deleteWorkspace_guard (s : AppState)
    (hnd : (recordKeys s.workspaces).Nodup) (hcur : CurrentIdValid s) :
    (s.workspaces.length = 1 → ∀ wid, deleteWorkspace s wid = s) ∧
    (∀ wid, rlookup wid s.workspaces = none → deleteWorkspace s wid = s) ∧
    (∀ wid, (rlookup wid s.workspaces).isSome → 2 ≤ s.workspaces.length →
      CurrentIdValid (deleteWorkspace s wid)) := by
  refine ⟨?_, ?_, ?_⟩
  · intro hlen wid
    unfold deleteWorkspace
    cases hw : rlookup wid s.workspaces with
    | none => rfl
    | some w =>
        dsimp only
        rw [if_pos (by omega)]
  · intro wid hw
    unfold deleteWorkspace
    rw [hw]
  · intro wid hw hlen
    rcases Option.isSome_iff_exists.mp hw with ⟨w, hww⟩
    unfold deleteWorkspace
    rw [hww]
    dsimp only
    rw [if_neg (by omega : ¬ s.workspaces.length ≤ 1)]
    have hne : recordDelete s.workspaces wid ≠ [] := recordDelete_ne_nil hnd hlen
    by_cases hcw : s.currentWorkspaceId = some wid
    · rw [if_pos hcw]
      intro _
      have hkne : recordKeys (recordDelete s.workspaces wid) ≠ [] := by
        simpa [recordKeys, List.map_eq_nil_iff] using hne
      cases hh : (recordKeys (recordDelete s.workspaces wid)).head? with
      | none => exact absurd (List.head?_eq_none_iff.mp hh) hkne
      | some k0 =>
          dsimp only [Option.bind]
          rw [(rlookup_isSome_iff_mem k0 _).mpr (List.mem_of_mem_head? hh)]
    · rw [if_neg hcw]
      intro _
      have hsnil : s.workspaces ≠ [] := by
        intro hh
        rw [hh] at hlen
        simp at hlen
      have hsome := hcur hsnil
      cases hc : s.currentWorkspaceId with
      | none =>
          rw [hc] at hsome
          simp at hsome
      | some cid =>
          rw [hc] at hsome
          simp only [Option.bind] at hsome ⊢
          have hcidwid : cid ≠ wid := by
            intro hh
            rw [hh] at hc
            exact hcw hc
          rw [rlookup_recordDelete_ne _ hcidwid]
          exact hsome

/-- Witness for C7 at a two-workspace state, deleting the current one. -/
theorem deleteWorkspace_guard_witness :
    ((recordKeys ([("w0", ⟨"w0", "A", [], ⟨⟨0, 0⟩, 1⟩, []⟩),
        ("w1", ⟨"w1", "B", [], ⟨⟨0, 0⟩, 1⟩, []⟩)] : List (String × WorkspaceData))).Nodup ∧
      CurrentIdValid ⟨[("w0", ⟨"w0", "A", [], ⟨⟨0, 0⟩, 1⟩, []⟩),
        ("w1", ⟨"w1", "B", [], ⟨⟨0, 0⟩, 1⟩, []⟩)], some "w0"⟩) ∧
      CurrentIdValid (deleteWorkspace ⟨[("w0", ⟨"w0", "A", [], ⟨⟨0, 0⟩, 1⟩, []⟩),
        ("w1", ⟨"w1", "B", [], ⟨⟨0, 0⟩, 1⟩, []⟩)], some "w0"⟩ "w0") :=
  ⟨⟨by decide, by decide⟩,
    (deleteWorkspace_guard _ (by decide) (by decide)).2.2 "w0" (by decide) (by decide)⟩

/-- C10: createWorkspace — with a fresh workspace id, the created
workspace holds exactly one default card (empty text, position
(100,100), size 200x100) whose id is the sole entry of its `cardOrder`;
the new workspace becomes current; every pre-existing workspace entry is
unchanged. -/
theorem createWorkspace_spec (s : AppState) (newId defaultCardId name : String)
    (hfresh : rlookup newId s.workspaces = none) :
    rlookup newId (createWorkspace s newId defaultCardId name).workspaces =
      some ⟨newId, name,
        [(defaultCardId, ⟨defaultCardId, "", ⟨100, 100⟩, some ⟨200, 100⟩⟩)],
        ⟨⟨0, 0⟩, 1⟩, [defaultCardId]⟩ ∧
    (createWorkspace s newId defaultCardId name).currentWorkspaceId = some newId ∧
    ∀ k, k ≠ newId →
      rlookup k (createWorkspace s newId defaultCardId name).workspaces =
        rlookup k s.workspaces := by
  unfold createWorkspace
  dsimp only
  have hset : recordSet s.workspaces newId
      ⟨newId, name, [(defaultCardId, ⟨defaultCardId, "", ⟨100, 100⟩, some ⟨200, 100⟩⟩)],
        ⟨⟨0, 0⟩, 1⟩, [defaultCardId]⟩ =
      s.workspaces ++ [(newId,
        ⟨newId, name, [(defaultCardId, ⟨defaultCardId, "", ⟨100, 100⟩, some ⟨200, 100⟩⟩)],
          ⟨⟨0, 0⟩, 1⟩, [defaultCardId]⟩)] := by
    simp [recordSet, hfresh]
  refine ⟨?_, rfl, ?_⟩
  · rw [hset, rlookup_append, hfresh]
    simp [rlookup]
  · intro k hk
    rw [hset, rlookup_append]
    cases hk2 : rlookup k s.workspaces with
    | some v => rfl
    | none =>
        dsimp only
        simp [rlookup, Ne.symm hk]

/-- Witness for C10 at the initial app state with fresh ids. -/
theorem createWorkspace_spec_witness :
    rlookup "w1" initialAppState.workspaces = none ∧
      (createWorkspace initialAppState "w1" "c0" "New").currentWorkspaceId = some "w1" :=
  ⟨by decide, (createWorkspace_spec initialAppState "w1" "c0" "New" (by decide)).2.1⟩

-- Gesture arbitration (SVG pan/zoom hook, `handleTouchStart` and the
-- other pan/pinch handlers).

/-- The pan/pinch gesture flags of the SVG pan/zoom hook
(`isPanning.current` and `isPinching.current`). -/
structure PanZoomGesture where
  isPanning : Bool
  isPinching : Bool
deriving DecidableEq, Repr

/-- The `handleTouchStart` handler (SVG pan/zoom hook, lines 213-256):
a touch start on a card, or while a pan or pinch is already in progress,
is ignored; two touches start a pinch; one touch starts a pan. -/
def handleTouchStartGesture (g : PanZoomGesture) (onCard : Bool) (numTouches : Nat) :
    PanZoomGesture :=
  if onCard || g.isPanning || g.isPinching then g
  else if numTouches = 2 then { g with isPinching := true }
  else if numTouches = 1 then { g with isPanning := true }
  else g

/-- The `handleMouseDown` handler (SVG pan/zoom hook, lines 197-211):
ignored on a card, on a non-left button, or while a pan or pinch is in
progress; otherwise starts a mouse pan. -/
def handleMouseDownGesture (g : PanZoomGesture) (onCard : Bool) (button : Nat) :
    PanZoomGesture :=
  if onCard || button != 0 || g.isPanning || g.isPinching then g
  else { g with isPanning := true }

/-- The `endPanInteraction` handler (SVG pan/zoom hook, lines 141-163):
when a pan or pinch is in progress, commit the view state and reset both
flags. -/
def endPanInteraction (g : PanZoomGesture) : PanZoomGesture :=
  if g.isPanning || g.isPinching then ⟨false, false⟩ else g

/-- One gesture-relevant input event of the pan/zoom controller. -/
inductive GestureEvent where
  | touchStart (onCard : Bool) (numTouches : Nat)
  | mouseDown (onCard : Bool) (button : Nat)
  | endInteraction
deriving Repr

/-- Step the gesture flags by one event. -/
def gestureStep (g : PanZoomGesture) : GestureEvent → PanZoomGesture
  | .touchStart onCard n => handleTouchStartGesture g onCard n
  | .mouseDown onCard b => handleMouseDownGesture g onCard b
  | .endInteraction => endPanInteraction g

/-- Counterexample to C6 as stated: a two-finger touch start arriving
while a single-finger pan is in progress does not cancel the pan and does
not start the pinch — `handleTouchStart` returns early when
`isPanning.current` is set, leaving the state unchanged. -/
theorem gesture_arbitration_counterexample :
    (handleTouchStartGesture ⟨true, false⟩ false 2).isPanning = true ∧
      (handleTouchStartGesture ⟨true, false⟩ false 2).isPinching = false := by
  constructor
  · decide
  · decide

theorem gestureStep_not_both (g : PanZoomGesture) (e : GestureEvent)
    (h : ¬(g.isPanning = true ∧ g.isPinching = true)) :
    ¬((gestureStep g e).isPanning = true ∧ (gestureStep g e).isPinching = true) := by
  obtain ⟨p, q⟩ := g
  have hpq : p = false ∨ q = false := by
    cases p
    · exact Or.inl rfl
    · cases q
      · exact Or.inr rfl
      · exact absurd ⟨rfl, rfl⟩ h
  cases e with
  | touchStart onCard n =>
      rcases hpq with hp | hq
      · subst hp
        cases q <;> cases onCard <;>
          by_cases h2 : n = 2 <;> by_cases h1 : n = 1 <;>
            simp [gestureStep, handleTouchStartGesture, h2, h1]
      · subst hq
        cases p <;> cases onCard <;>
          by_cases h2 : n = 2 <;> by_cases h1 : n = 1 <;>
            simp [gestureStep, handleTouchStartGesture, h2, h1]
  | mouseDown onCard b =>
      rcases hpq with hp | hq
      · subst hp
        cases q <;> cases onCard <;> by_cases hb : b = 0 <;>
          simp [gestureStep, handleMouseDownGesture, hb]
      · subst hq
        cases p <;> cases onCard <;> by_cases hb : b = 0 <;>
          simp [gestureStep, handleMouseDownGesture, hb]
  | endInteraction =>
      cases p <;> cases q <;> simp [gestureStep, endPanInteraction]

/-- C6 (amended): a two-finger touch start arriving while a single-finger
pan is in progress is ignored — the pan stays in progress and no pinch
starts; and the controller is never simultaneously panning and pinching:
from the idle state, no sequence of touch-start, mouse-down and
end-interaction events reaches a state with both flags set. -/
theorem gesture_arbitration (g : PanZoomGesture) (onCard : Bool)
    (hpan : g.isPanning = true) :
    handleTouchStartGesture g onCard 2 = g ∧
      ∀ events : List GestureEvent,
        ¬((events.foldl gestureStep ⟨false, false⟩).isPanning = true ∧
          (events.foldl gestureStep ⟨false, false⟩).isPinching = true) := by
  constructor
  · simp [handleTouchStartGesture, hpan]
  · intro events
    have hinv : ∀ (g0 : PanZoomGesture),
        ¬(g0.isPanning = true ∧ g0.isPinching = true) →
        ¬((events.foldl gestureStep g0).isPanning = true ∧
          (events.foldl gestureStep g0).isPinching = true) := by
      induction events with
      | nil => intro g0 h0; exact h0
      | cons e rest ih =>
          intro g0 h0
          exact ih (gestureStep g0 e) (gestureStep_not_both g0 e h0)
    exact hinv ⟨false, false⟩ (by simp)

/-- Witness for the amended C6: a panning state with a two-finger touch
start. -/
theorem gesture_arbitration_witness :
    (PanZoomGesture.mk true false).isPanning = true ∧
      handleTouchStartGesture ⟨true, false⟩ false 2 = ⟨true, false⟩ :=
  ⟨by decide, (gesture_arbitration ⟨true, false⟩ false (by decide)).1⟩
